import Mathlib

/-!
Verification of the `frontend` HTTP gateway (frontend.go).

The program is a configuration-driven reverse proxy: it builds a table of
path-prefix routes from a `name → backend URL` mapping, rewrites each inbound
request (scheme/host replacement, prefix stripping, query merging) and
forwards it, capturing the response status for structured access logging.

Strings are modelled as Lean `String` (sequences of characters; the Go
sources only manipulate ASCII here, where Go's byte-indexed operations and
character-indexed operations coincide).  Each definition carries a note
saying which Go function it embeds.  Fallible Go code (`url.Parse`,
`log.Fatal` at startup) is modelled with `Except`.
-/

set_option autoImplicit false

/-- Embeds Go `strings.TrimPrefix(s, pre)`: returns `s` without the provided
leading prefix string; `s` unchanged when it does not start with `pre`. -/
def TrimPrefixGo (s pre : String) : String :=
  if pre.data.isPrefixOf s.data then ⟨s.data.drop pre.data.length⟩ else s

/-- Embeds Go `strings.HasPrefix(s, pre)`. -/
def HasPrefixGo (s pre : String) : Bool :=
  pre.data.isPrefixOf s.data

/-! ## Model of Go `net/url.Parse` (external standard library, Go 1.x era)

The repository calls `url.Parse` (frontend.go line 21) on each configured
backend URL.  The definitions below embed the parsing pipeline of Go's
`net/url` from that era: `getscheme`, `split`, `validOptionalPort`,
`unescape`, `parseAuthority`/`parseHost` and `parse(rawurl, viaRequest=false)`.
IPv6 zone decoding inside `[...]` hosts and the exact userinfo validation are
simplified (none of the claims exercise them); everything the claims touch —
scheme extraction, query splitting, authority/host/port handling, percent
escapes, and crucially the fact that a relative URL parses without error —
follows the Go source. -/

/-- ASCII letter, as in Go `getscheme`'s first switch case. -/
def isSchemeAlpha (c : Char) : Bool :=
  ('a' ≤ c && c ≤ 'z') || ('A' ≤ c && c ≤ 'Z')

/-- ASCII digit. -/
def isDigitGo (c : Char) : Bool :=
  '0' ≤ c && c ≤ '9'

/-- Hexadecimal digit, Go `ishex`. -/
def isHexGo (c : Char) : Bool :=
  isDigitGo c || ('a' ≤ c && c ≤ 'f') || ('A' ≤ c && c ≤ 'F')

/-- Value of a hexadecimal digit, Go `unhex`. -/
def hexValGo (c : Char) : Nat :=
  if isDigitGo c then c.toNat - '0'.toNat
  else if 'a' ≤ c && c ≤ 'f' then c.toNat - 'a'.toNat + 10
  else if 'A' ≤ c && c ≤ 'F' then c.toNat - 'A'.toNat + 10
  else 0

/-- Loop body of Go `net/url.getscheme`: walk the characters with their index,
remembering the whole input `orig`. -/
def getschemeAux (orig : List Char) : List Char → Nat → Except String (List Char × List Char)
  | [], _ => .ok ([], orig)
  | c :: rest, i =>
    if isSchemeAlpha c then
      getschemeAux orig rest (i + 1)
    else if isDigitGo c || c == '+' || c == '-' || c == '.' then
      if i == 0 then .ok ([], orig) else getschemeAux orig rest (i + 1)
    else if c == ':' then
      if i == 0 then .error "missing protocol scheme"
      else .ok (orig.take i, orig.drop (i + 1))
    else
      .ok ([], orig)

/-- Embeds Go `net/url.getscheme`: split a leading `scheme:` off a raw URL. -/
def getschemeGo (rawurl : List Char) : Except String (List Char × List Char) :=
  getschemeAux rawurl rawurl 0

/-- Embeds Go `net/url.split(s, c, cutc)`: split at the first occurrence of
`c`; `cutc` drops the separator from the remainder. -/
def splitGo : List Char → Char → Bool → List Char × List Char
  | [], _, _ => ([], [])
  | x :: xs, c, cutc =>
    if x == c then ([], if cutc then xs else x :: xs)
    else
      let p := splitGo xs c cutc
      (x :: p.1, p.2)

/-- Embeds Go `net/url.validOptionalPort`: empty, or `:` followed by digits. -/
def validOptionalPort : List Char → Bool
  | [] => true
  | c :: rest => c == ':' && rest.all isDigitGo

/-- Index of the last occurrence of `c`, Go `strings.LastIndex` for one byte. -/
def lastIndexOfGo : List Char → Char → Option Nat
  | [], _ => none
  | x :: xs, c =>
    match lastIndexOfGo xs c with
    | some i => some (i + 1)
    | none => if x == c then some 0 else none

/-- Embeds Go `net/url.unescape`: decode `%XX` escapes, failing on malformed
ones; in host mode (`isHost = true`) escapes below `%80` other than `%25` are
rejected, as in Go's `encodeHost` mode. -/
def unescapeGo : List Char → Bool → Except String (List Char)
  | [], _ => .ok []
  | '%' :: a :: b :: rest, isHost =>
    if isHexGo a && isHexGo b then
      if isHost && hexValGo a < 8 && !(a == '2' && b == '5') then
        .error "invalid character in host name"
      else do
        let r ← unescapeGo rest isHost
        .ok (Char.ofNat (hexValGo a * 16 + hexValGo b) :: r)
    else .error "invalid URL escape"
  | '%' :: rest, _ =>
    match rest with
    | _ => .error "invalid URL escape"
  | c :: rest, isHost => do
    let r ← unescapeGo rest isHost
    .ok (c :: r)

/-- Embeds Go `net/url.parseHost`: validate an optional `:port` (after the
closing bracket for `[...]` literals, after the last `:` otherwise) and
unescape the host. -/
def parseHostGo (host : List Char) : Except String (List Char) :=
  if host.head? == some '[' then
    match lastIndexOfGo host ']' with
    | none => .error "missing right bracket in host"
    | some i =>
      if validOptionalPort (host.drop (i + 1)) then unescapeGo host true
      else .error "invalid port after host"
  else
    match lastIndexOfGo host ':' with
    | some i =>
      if validOptionalPort (host.drop i) then unescapeGo host true
      else .error "invalid port after host"
    | none => unescapeGo host true

/-- Embeds Go `net/url.parseAuthority`: split userinfo from host at the last
`@`; yields `(userinfo, host)`. -/
def parseAuthorityGo (authority : List Char) : Except String (List Char × List Char) :=
  match lastIndexOfGo authority '@' with
  | none => do
    let h ← parseHostGo authority
    .ok ([], h)
  | some i => do
    let h ← parseHostGo (authority.drop (i + 1))
    let u ← unescapeGo (authority.take i) false
    .ok (u, h)

/-- The fields of Go `net/url.URL` used by this program.  `rootlessPart`
stands for the field Go names `URL.Opaque` (the rootless part of a URL such
as `mailto:user`). -/
structure GoURL where
  Scheme : String := ""
  rootlessPart : String := ""
  User : String := ""
  Host : String := ""
  Path : String := ""
  RawQuery : String := ""
  ForceQuery : Bool := false
deriving DecidableEq

/-- Embeds Go `net/url.Parse` (i.e. `parse(rawurl, viaRequest := false)`):
scheme split, `?` query split (with the trailing-`?` `ForceQuery` case),
rootless ("opaque") URLs, `//authority` parsing, then the path.  A relative
reference like `/relative/path` has no error branch: it parses with empty
scheme and host. -/
def urlParseGo (rawurl : String) : Except String GoURL :=
  if rawurl = "*" then .ok { Path := "*" }
  else do
    let (schemeRaw, rest0) ← getschemeGo rawurl.data
    let scheme := schemeRaw.map Char.toLower
    let (rest, rawQuery, forceQuery) :=
      if rest0.getLast? == some '?' && !(rest0.dropLast.contains '?') then
        (rest0.dropLast, ([] : List Char), true)
      else
        let p := splitGo rest0 '?' true
        (p.1, p.2, false)
    if rest.head? != some '/' && scheme != [] then
      .ok { Scheme := ⟨scheme⟩, rootlessPart := ⟨rest⟩, RawQuery := ⟨rawQuery⟩,
            ForceQuery := forceQuery }
    else if (scheme != [] || !(List.isPrefixOf "///".data rest)) &&
        List.isPrefixOf "//".data rest then do
      let p := splitGo (rest.drop 2) '/' false
      let (user, host) ← parseAuthorityGo p.1
      let path ← unescapeGo p.2 false
      .ok { Scheme := ⟨scheme⟩, User := ⟨user⟩, Host := ⟨host⟩, Path := ⟨path⟩,
            RawQuery := ⟨rawQuery⟩, ForceQuery := forceQuery }
    else do
      let path ← unescapeGo rest false
      .ok { Scheme := ⟨scheme⟩, Path := ⟨path⟩, RawQuery := ⟨rawQuery⟩,
            ForceQuery := forceQuery }

deriving instance DecidableEq for Except

/-! ## The proxy routes (frontend.go lines 20-41, 102-120) -/

/-- One reverse-proxy route: the closure state captured by the director in
`NewRewriteReverseProxy` (frontend.go lines 20-37): the public prefix
`basePath` and the parsed backend `target`. -/
structure Route where
  basePath : String
  target : GoURL
deriving DecidableEq

/-- Embeds `NewRewriteReverseProxy` (frontend.go lines 20-24 and 36): parse
the backend URL; `log.Fatal(err)` on a parse error aborts startup, modelled
as `Except.error`. -/
def NewRewriteReverseProxy (basePath redirectUrl : String) : Except String Route :=
  match urlParseGo redirectUrl with
  | .error e => .error e
  | .ok target => .ok { basePath := basePath, target := target }

/-- Embeds the director closure of `NewRewriteReverseProxy` (frontend.go
lines 26-35): replace scheme and host with the target's, strip `basePath`
from the left of the path, and merge the target's static query with the
inbound query (target query first, joined by `&` only when both are
non-empty). -/
def director (basePath : String) (target : GoURL) (req : GoURL) : GoURL :=
  let targetQuery := target.RawQuery
  { req with
    Scheme := target.Scheme
    Host := target.Host
    Path := TrimPrefixGo req.Path basePath
    RawQuery :=
      if targetQuery = "" ∨ req.RawQuery = "" then targetQuery ++ req.RawQuery
      else targetQuery ++ "&" ++ req.RawQuery }

/-- A route as registered on the mux router (frontend.go lines 117-120):
the `PathPrefix` template `fmt.Sprintf("/%s/", base)` and the proxy built
with base path `fmt.Sprintf("/%s", base)`. -/
structure RegisteredRoute where
  pattern : String
  route : Route
deriving DecidableEq

/-- Embeds the route-construction loop of `main` (frontend.go lines 117-120),
iterating over the configured `name → backend URL` pairs: each entry yields a
proxy with base path `"/" ++ base` registered under the path-prefix pattern
`"/" ++ base ++ "/"`; a `log.Fatal` inside `NewRewriteReverseProxy` aborts
the whole startup, so an error anywhere yields no table at all. -/
def buildRoutes : List (String × String) → Except String (List RegisteredRoute)
  | [] => .ok []
  | (base, redirectPath) :: rest => do
    let proxy ← NewRewriteReverseProxy ("/" ++ base) redirectPath
    let rs ← buildRoutes rest
    .ok ({ pattern := "/" ++ base ++ "/", route := proxy } :: rs)

/-- Models gorilla/mux dispatch for a route registered with
`PathPrefix(pattern)` (external library): the route matches a request whose
path begins with `pattern`.  (`StrictSlash` affects only full-path routes,
not prefix matchers.) -/
def muxPathPrefixMatches (pattern path : String) : Bool :=
  pattern.data.isPrefixOf path.data

/-- Serving a stream of requests through one route's director, threading the
route value through so that any (absent) mutation of the captured closure
state would show up: yields the rewritten requests and the route state left
for later requests. -/
def serveAll : Route → List GoURL → List GoURL × Route
  | rt, [] => ([], rt)
  | rt, req :: rest =>
    let out := director rt.basePath rt.target req
    let p := serveAll rt rest
    (out :: p.1, p.2)

/-! ## The status-capturing response writer (frontend.go lines 43-72)

An `http.ResponseWriter` is modelled by the trace of calls it receives plus
its header map; the wrapper is the Go struct `StatusLoggingResponseWriter`
with its mutable `status` field made explicit by state passing. -/

/-- A call made on an `http.ResponseWriter`: an explicit `WriteHeader` or a
body `Write` (bytes as naturals). -/
inductive WriterCall where
  | writeHeader (statusCode : Int)
  | write (data : List Nat)
deriving DecidableEq

/-- Whether a call is an explicit `WriteHeader`. -/
def isWriteHeaderCall : WriterCall → Bool
  | WriterCall.writeHeader _ => true
  | WriterCall.write _ => false

/-- The wrapped (underlying) `http.ResponseWriter`: its header map and the
calls it has received, oldest first. -/
structure UnderlyingWriter where
  headerMap : List (String × String)
  calls : List WriterCall
deriving DecidableEq

/-- Embeds the struct `StatusLoggingResponseWriter` (frontend.go lines
43-46): the captured `status` and the embedded `http.ResponseWriter`. -/
structure StatusLoggingResponseWriter where
  status : Int
  responseWriter : UnderlyingWriter
deriving DecidableEq

/-- Embeds `NewStatusLoggingResponseWriter` (frontend.go lines 48-51):
default the status code to 200. -/
def NewStatusLoggingResponseWriter (res : UnderlyingWriter) : StatusLoggingResponseWriter :=
  { status := 200, responseWriter := res }

/-- Embeds the `Status` getter (frontend.go lines 53-55). -/
def StatusLoggingResponseWriter.Status (w : StatusLoggingResponseWriter) : Int :=
  w.status

/-- Embeds `Header` (frontend.go lines 58-60): delegate to the wrapped
writer's header map. -/
def StatusLoggingResponseWriter.Header (w : StatusLoggingResponseWriter) : List (String × String) :=
  w.responseWriter.headerMap

/-- Embeds `Write` (frontend.go lines 62-64): delegate the body bytes to the
wrapped writer, leaving the captured status untouched. -/
def StatusLoggingResponseWriter.Write (w : StatusLoggingResponseWriter) (data : List Nat) :
    StatusLoggingResponseWriter :=
  { w with responseWriter :=
      { w.responseWriter with calls := w.responseWriter.calls ++ [WriterCall.write data] } }

/-- Embeds `WriteHeader` (frontend.go lines 66-72): store the status code,
then write it onward to the wrapped writer. -/
def StatusLoggingResponseWriter.WriteHeader (w : StatusLoggingResponseWriter) (statusCode : Int) :
    StatusLoggingResponseWriter :=
  { status := statusCode,
    responseWriter :=
      { w.responseWriter with calls := w.responseWriter.calls ++ [WriterCall.writeHeader statusCode] } }

/-- Run a handler's sequence of response-writer calls through the wrapper. -/
def runCalls : StatusLoggingResponseWriter → List WriterCall → StatusLoggingResponseWriter
  | w, [] => w
  | w, WriterCall.writeHeader c :: rest => runCalls (w.WriteHeader c) rest
  | w, WriterCall.write d :: rest => runCalls (w.Write d) rest

/-! ## The access-log middleware (frontend.go lines 74-96) -/

/-- Models Go `net/http.StatusText` (external standard library): the
human-readable text for an HTTP status code, `""` for unknown codes.  The
table lists the codes this gateway commonly relays; the claims depend only
on the log field being this function of the captured status. -/
def StatusText (code : Int) : String :=
  if code = 200 then "OK"
  else if code = 201 then "Created"
  else if code = 204 then "No Content"
  else if code = 301 then "Moved Permanently"
  else if code = 302 then "Found"
  else if code = 304 then "Not Modified"
  else if code = 400 then "Bad Request"
  else if code = 401 then "Unauthorized"
  else if code = 403 then "Forbidden"
  else if code = 404 then "Not Found"
  else if code = 500 then "Internal Server Error"
  else if code = 502 then "Bad Gateway"
  else if code = 503 then "Service Unavailable"
  else if code = 504 then "Gateway Timeout"
  else ""

/-- The parts of Go `http.Request` read by the logging middleware: request
URI, method, remote address, URL and headers (stored with canonicalized
keys, as Go's server does). -/
structure Request where
  Method : String
  RequestURI : String
  RemoteAddr : String
  URL : GoURL
  Header : List (String × String)
deriving DecidableEq

/-- Models Go `http.Header.Get` on canonicalized keys: the first value for
the key, `""` when absent. -/
def headerGetGo (h : List (String × String)) (key : String) : String :=
  match h.find? (fun p => p.1 == key) with
  | some p => p.2
  | none => ""

/-- The structured record the logrus entry emits (frontend.go lines 82-94):
the `WithFields` fields, the optional `request_id` field, and the `Info`
message. -/
structure LogRecord where
  request : String
  method : String
  remote : String
  status : Int
  text_status : String
  latency : Int
  request_id : Option String
  message : String
deriving DecidableEq

/-- Embeds `NewLogrusHandler` (frontend.go lines 74-96): wrap the handler in
a fresh status-logging writer, run it, then emit exactly one structured
record.  The handler is any function of the writer and the request; the
elapsed `latency` (`time.Since(start)`, nanoseconds) is an input since real
time is outside the model.  Returns the writer as the handler left it and
the one emitted record. -/
def NewLogrusHandler (handler : StatusLoggingResponseWriter → Request → StatusLoggingResponseWriter)
    (res : UnderlyingWriter) (r : Request) (latency : Int) :
    StatusLoggingResponseWriter × LogRecord :=
  let loggingWriter := NewStatusLoggingResponseWriter res
  let w := handler loggingWriter r
  let entry : LogRecord :=
    { request := r.RequestURI
      method := r.Method
      remote := r.RemoteAddr
      status := w.Status
      text_status := StatusText w.Status
      latency := latency
      request_id := none
      message := "completed handling request" }
  let reqID := headerGetGo r.Header "X-Request-Id"
  let entry := if reqID ≠ "" then { entry with request_id := some reqID } else entry
  (w, entry)

/-! ## Helper lemmas -/

theorem string_empty_append (s : String) : "" ++ s = s := by
  cases s
  rfl

theorem string_append_empty (s : String) : s ++ "" = s := by
  cases s with
  | mk l => exact congrArg String.mk (List.append_nil l)

theorem TrimPrefixGo_of_append (basePath rest : String) :
    TrimPrefixGo (basePath ++ rest) basePath = rest := by
  unfold TrimPrefixGo
  rw [if_pos]
  · rw [String.data_append, List.drop_left]
  · simp [String.data_append, List.isPrefixOf_iff_prefix]

theorem TrimPrefixGo_of_no_match (s pre : String) (h : HasPrefixGo s pre = false) :
    TrimPrefixGo s pre = s := by
  unfold HasPrefixGo at h
  simp [TrimPrefixGo, h]

/-- Claim C1: the rewritten query string is empty when both the backend's
static query and the inbound query are empty, equal to the non-empty one
unmodified when exactly one is empty, and `target ++ "&" ++ inbound` when
both are non-empty; in particular the route built from
`{"svc": "http://backend.local:9000/base?key=abc"}` rewrites a request for
`/svc/items?page=2` with query `key=abc&page=2`. -/
theorem C1_query_merge :
    (∀ (basePath : String) (target req : GoURL),
      (director basePath target req).RawQuery =
        if target.RawQuery = "" ∧ req.RawQuery = "" then ""
        else if target.RawQuery = "" then req.RawQuery
        else if req.RawQuery = "" then target.RawQuery
        else target.RawQuery ++ "&" ++ req.RawQuery) ∧
    Except.map
        (fun rt => (director rt.basePath rt.target
          { Scheme := "http", Host := "gateway.example", Path := "/svc/items",
            RawQuery := "page=2" }).RawQuery)
        (NewRewriteReverseProxy "/svc" "http://backend.local:9000/base?key=abc") =
      Except.ok "key=abc&page=2" := by
  constructor
  · intro basePath target req
    show (if target.RawQuery = "" ∨ req.RawQuery = "" then
            target.RawQuery ++ req.RawQuery
          else target.RawQuery ++ "&" ++ req.RawQuery) = _
    by_cases ht : target.RawQuery = "" <;> by_cases hr : req.RawQuery = "" <;>
      simp [ht, hr, string_empty_append, string_append_empty]
  · decide

/-- Claim C2: when the inbound path starts with the route's base path, the
director sets the scheme and host to the backend's and the path to the
inbound path with the base path stripped from the left, nothing else. -/
theorem C2_rewrite_scheme_host_path (basePath rest : String) (target req : GoURL)
    (h : req.Path = basePath ++ rest) :
    (director basePath target req).Scheme = target.Scheme ∧
    (director basePath target req).Host = target.Host ∧
    (director basePath target req).Path = rest := by
  refine ⟨rfl, rfl, ?_⟩
  show TrimPrefixGo req.Path basePath = rest
  rw [h]
  exact TrimPrefixGo_of_append basePath rest

theorem C2_rewrite_scheme_host_path_witness :
    ("/svc/items" : String) = "/svc" ++ "/items" ∧
    ((director "/svc" { Scheme := "http", Host := "backend.local:9000", RawQuery := "key=abc" }
        { Path := "/svc/items" }).Scheme =
      ({ Scheme := "http", Host := "backend.local:9000", RawQuery := "key=abc" } : GoURL).Scheme ∧
    (director "/svc" { Scheme := "http", Host := "backend.local:9000", RawQuery := "key=abc" }
        { Path := "/svc/items" }).Host =
      ({ Scheme := "http", Host := "backend.local:9000", RawQuery := "key=abc" } : GoURL).Host ∧
    (director "/svc" { Scheme := "http", Host := "backend.local:9000", RawQuery := "key=abc" }
        { Path := "/svc/items" }).Path = "/items") :=
  ⟨by decide,
   C2_rewrite_scheme_host_path "/svc" "/items"
     { Scheme := "http", Host := "backend.local:9000", RawQuery := "key=abc" }
     { Path := "/svc/items" } (by decide)⟩

/-- Claim C7: the director's rewrite is deterministic and stateless: serving
any stream of requests through one route rewrites each request as a pure
function of the route and that request alone (identical requests yield
identical rewrites wherever they occur), and leaves the route's stored base
path and backend target unchanged for every later request. -/
theorem C7_stateless_director (rt : Route) (reqs : List GoURL) :
    serveAll rt reqs = (reqs.map (director rt.basePath rt.target), rt) := by
  induction reqs with
  | nil => rfl
  | cons r rest ih => simp [serveAll, ih]

/-- Claim C9: the director is total also outside the router's guarantee: on
a path that does not start with the route's base path the prefix strip is a
no-op, while scheme and host replacement and the query merge still happen,
with no error branch. -/
theorem C9_director_total (basePath : String) (target req : GoURL)
    (h : HasPrefixGo req.Path basePath = false) :
    (director basePath target req).Path = req.Path ∧
    (director basePath target req).Scheme = target.Scheme ∧
    (director basePath target req).Host = target.Host ∧
    (director basePath target req).RawQuery =
      (if target.RawQuery = "" ∨ req.RawQuery = "" then target.RawQuery ++ req.RawQuery
       else target.RawQuery ++ "&" ++ req.RawQuery) := by
  refine ⟨?_, rfl, rfl, rfl⟩
  show TrimPrefixGo req.Path basePath = req.Path
  exact TrimPrefixGo_of_no_match req.Path basePath h

theorem C9_director_total_witness :
    HasPrefixGo "/other/x" "/svc" = false ∧
    ((director "/svc" { Scheme := "http", Host := "h" }
        { Path := "/other/x", RawQuery := "q=1" }).Path = "/other/x" ∧
    (director "/svc" { Scheme := "http", Host := "h" }
        { Path := "/other/x", RawQuery := "q=1" }).Scheme =
      ({ Scheme := "http", Host := "h" } : GoURL).Scheme ∧
    (director "/svc" { Scheme := "http", Host := "h" }
        { Path := "/other/x", RawQuery := "q=1" }).Host =
      ({ Scheme := "http", Host := "h" } : GoURL).Host ∧
    (director "/svc" { Scheme := "http", Host := "h" }
        { Path := "/other/x", RawQuery := "q=1" }).RawQuery =
      (if ({ Scheme := "http", Host := "h" } : GoURL).RawQuery = "" ∨
          ({ Path := "/other/x", RawQuery := "q=1" } : GoURL).RawQuery = "" then
        ({ Scheme := "http", Host := "h" } : GoURL).RawQuery ++
          ({ Path := "/other/x", RawQuery := "q=1" } : GoURL).RawQuery
       else ({ Scheme := "http", Host := "h" } : GoURL).RawQuery ++ "&" ++
          ({ Path := "/other/x", RawQuery := "q=1" } : GoURL).RawQuery)) :=
  ⟨by decide,
   C9_director_total "/svc" { Scheme := "http", Host := "h" }
     { Path := "/other/x", RawQuery := "q=1" } (by decide)⟩

theorem buildRoutes_cons (base red : String) (rest : List (String × String)) :
    buildRoutes ((base, red) :: rest) =
      match urlParseGo red with
      | .error e => .error e
      | .ok u =>
        match buildRoutes rest with
        | .error e => .error e
        | .ok rs => .ok ({ pattern := "/" ++ base ++ "/",
                           route := { basePath := "/" ++ base, target := u } } :: rs) := by
  show (NewRewriteReverseProxy ("/" ++ base) red).bind _ = _
  unfold NewRewriteReverseProxy
  cases urlParseGo red with
  | error e => rfl
  | ok u =>
    show (buildRoutes rest).bind _ = _
    cases buildRoutes rest with
    | error e => rfl
    | ok rs => rfl

theorem buildRoutes_ok_iff (cfg : List (String × String)) :
    (buildRoutes cfg).isOk = true ↔ ∀ p ∈ cfg, (urlParseGo p.2).isOk = true := by
  induction cfg with
  | nil => simp [buildRoutes, Except.isOk, Except.toBool]
  | cons p rest ih =>
    obtain ⟨base, red⟩ := p
    rw [buildRoutes_cons]
    cases hp : urlParseGo red with
    | error e =>
      constructor
      · intro h
        simp [Except.isOk, Except.toBool] at h
      · intro h
        have h1 := h (base, red) (by simp)
        rw [show ((base, red) : String × String).2 = red from rfl, hp] at h1
        simp [Except.isOk, Except.toBool] at h1
    | ok u =>
      cases hb : buildRoutes rest with
      | error e =>
        constructor
        · intro h
          simp [Except.isOk, Except.toBool] at h
        · intro h
          have h2 : ∀ p ∈ rest, (urlParseGo p.2).isOk = true :=
            fun q hq => h q (by simp [hq])
          have h3 := ih.mpr h2
          rw [hb] at h3
          simp [Except.isOk, Except.toBool] at h3
      | ok rs =>
        constructor
        · intro _ q hq
          rcases List.mem_cons.mp hq with hq1 | hq2
          · subst hq1
            show (urlParseGo red).isOk = true
            rw [hp]
            rfl
          · exact ih.mp (by rw [hb]; rfl) q hq2
        · intro _
          rfl

theorem buildRoutes_length (cfg : List (String × String)) :
    ∀ rts, buildRoutes cfg = Except.ok rts → rts.length = cfg.length := by
  induction cfg with
  | nil =>
    intro rts h
    simp [buildRoutes] at h
    simp [← h]
  | cons p rest ih =>
    intro rts h
    obtain ⟨base, red⟩ := p
    rw [buildRoutes_cons] at h
    cases hp : urlParseGo red with
    | error e =>
      rw [hp] at h
      simp at h
    | ok u =>
      rw [hp] at h
      cases hb : buildRoutes rest with
      | error e =>
        rw [hb] at h
        simp at h
      | ok rs =>
        rw [hb] at h
        simp only [Except.ok.injEq] at h
        rw [← h]
        simp [ih rs hb]

/-- Claim C3 counterexample: the backend URL string `/relative/path` has no
scheme and no host, yet route-table construction succeeds (Go's `url.Parse`
accepts relative references), so construction does not fail whenever scheme
or host is missing. -/
theorem C3_counterexample_relative_url_accepted :
    ({ Path := "/relative/path" } : GoURL).Scheme = "" ∧
    ({ Path := "/relative/path" } : GoURL).Host = "" ∧
    buildRoutes [("svc", "/relative/path")] =
      Except.ok [{ pattern := "/svc/",
                   route := { basePath := "/svc", target := { Path := "/relative/path" } } }] := by
  refine ⟨rfl, rfl, ?_⟩
  decide

/-- Claim C3 as amended: route-table construction fails fatally exactly when
some configured backend URL string is rejected by Go's `url.Parse` (for
example an empty scheme before `:`, or an invalid port); a string that
parses but lacks a scheme or host — such as a relative path — is accepted.
When construction succeeds the table has one entry per configured route, and
on failure there is no table at all (no partial table). -/
theorem C3_fatal_iff_parse_error (cfg : List (String × String)) :
    ((buildRoutes cfg).isOk = true ↔ ∀ p ∈ cfg, (urlParseGo p.2).isOk = true) ∧
    (∀ rts, buildRoutes cfg = Except.ok rts → rts.length = cfg.length) :=
  ⟨buildRoutes_ok_iff cfg, buildRoutes_length cfg⟩

theorem runCalls_forwarded (calls : List WriterCall) :
    ∀ w : StatusLoggingResponseWriter,
      (runCalls w calls).responseWriter.calls = w.responseWriter.calls ++ calls := by
  induction calls with
  | nil => intro w; simp [runCalls]
  | cons c rest ih =>
    intro w
    cases c with
    | writeHeader n => simp [runCalls, StatusLoggingResponseWriter.WriteHeader, ih]
    | write d => simp [runCalls, StatusLoggingResponseWriter.Write, ih]

theorem runCalls_headerMap (calls : List WriterCall) :
    ∀ w : StatusLoggingResponseWriter,
      (runCalls w calls).responseWriter.headerMap = w.responseWriter.headerMap := by
  induction calls with
  | nil => intro w; rfl
  | cons c rest ih =>
    intro w
    cases c with
    | writeHeader n => exact ih (w.WriteHeader n)
    | write d => exact ih (w.Write d)

theorem runCalls_status_of_no_writeHeader (calls : List WriterCall) :
    ∀ w : StatusLoggingResponseWriter,
      calls.all (fun k => !isWriteHeaderCall k) = true →
      (runCalls w calls).status = w.status := by
  induction calls with
  | nil => intro w _; rfl
  | cons c rest ih =>
    intro w h
    cases c with
    | writeHeader n => simp [isWriteHeaderCall] at h
    | write d =>
      have h' : rest.all (fun k => !isWriteHeaderCall k) = true := by
        simpa [isWriteHeaderCall] using h
      exact ih (w.Write d) h'

theorem runCalls_append (a b : List WriterCall) :
    ∀ w : StatusLoggingResponseWriter, runCalls w (a ++ b) = runCalls (runCalls w a) b := by
  induction a with
  | nil => intro w; rfl
  | cons c rest ih =>
    intro w
    cases c with
    | writeHeader n => exact ih (w.WriteHeader n)
    | write d => exact ih (w.Write d)

/-- Claim C4: the wrapper initializes the captured status to 200; an explicit
`WriteHeader` is captured and forwarded unchanged to the underlying writer; a
handler that never calls `WriteHeader` leaves the captured status at 200;
every call is delegated to the underlying writer unchanged and in order, and
header access reads the underlying writer's header map, so nothing is
altered, delayed or buffered. -/
theorem C4_status_capture (res : UnderlyingWriter) (body calls : List WriterCall) (c : Int)
    (hbody : body.all (fun k => !isWriteHeaderCall k) = true) :
    (NewStatusLoggingResponseWriter res).Status = 200 ∧
    (runCalls (NewStatusLoggingResponseWriter res) body).Status = 200 ∧
    (runCalls (NewStatusLoggingResponseWriter res) (WriterCall.writeHeader c :: body)).Status = c ∧
    (runCalls (NewStatusLoggingResponseWriter res) calls).responseWriter.calls =
      res.calls ++ calls ∧
    (runCalls (NewStatusLoggingResponseWriter res) calls).Header = res.headerMap := by
  refine ⟨rfl, ?_, ?_, ?_, ?_⟩
  · exact runCalls_status_of_no_writeHeader body (NewStatusLoggingResponseWriter res) hbody
  · show (runCalls ((NewStatusLoggingResponseWriter res).WriteHeader c) body).status = c
    exact runCalls_status_of_no_writeHeader body _ hbody
  · exact runCalls_forwarded calls (NewStatusLoggingResponseWriter res)
  · exact runCalls_headerMap calls (NewStatusLoggingResponseWriter res)

theorem C4_status_capture_witness :
    ([WriterCall.write [104, 105]].all (fun k => !isWriteHeaderCall k) = true) ∧
    ((NewStatusLoggingResponseWriter ⟨[("Content-Type", "text/plain")], []⟩).Status = 200 ∧
    (runCalls (NewStatusLoggingResponseWriter ⟨[("Content-Type", "text/plain")], []⟩)
      [WriterCall.write [104, 105]]).Status = 200 ∧
    (runCalls (NewStatusLoggingResponseWriter ⟨[("Content-Type", "text/plain")], []⟩)
      (WriterCall.writeHeader 404 :: [WriterCall.write [104, 105]])).Status = 404 ∧
    (runCalls (NewStatusLoggingResponseWriter ⟨[("Content-Type", "text/plain")], []⟩)
      [WriterCall.writeHeader 201, WriterCall.write [104, 105]]).responseWriter.calls =
      [] ++ [WriterCall.writeHeader 201, WriterCall.write [104, 105]] ∧
    (runCalls (NewStatusLoggingResponseWriter ⟨[("Content-Type", "text/plain")], []⟩)
      [WriterCall.writeHeader 201, WriterCall.write [104, 105]]).Header =
      [("Content-Type", "text/plain")]) :=
  ⟨by decide,
   C4_status_capture ⟨[("Content-Type", "text/plain")], []⟩ [WriterCall.write [104, 105]]
     [WriterCall.writeHeader 201, WriterCall.write [104, 105]] 404 (by decide)⟩

/-- Claim C10: when the handler calls `WriteHeader` more than once, every
call is forwarded to the underlying writer in order, and the captured status
read afterwards is the argument of the most recent call. -/
theorem C10_last_writeHeader_wins (res : UnderlyingWriter) (pre post : List WriterCall) (c : Int)
    (hpost : post.all (fun k => !isWriteHeaderCall k) = true) :
    (runCalls (NewStatusLoggingResponseWriter res)
      (pre ++ WriterCall.writeHeader c :: post)).Status = c ∧
    (runCalls (NewStatusLoggingResponseWriter res)
      (pre ++ WriterCall.writeHeader c :: post)).responseWriter.calls =
      res.calls ++ (pre ++ WriterCall.writeHeader c :: post) := by
  constructor
  · show (runCalls (NewStatusLoggingResponseWriter res)
      (pre ++ WriterCall.writeHeader c :: post)).status = c
    rw [runCalls_append]
    show (runCalls ((runCalls (NewStatusLoggingResponseWriter res) pre).WriteHeader c)
      post).status = c
    exact runCalls_status_of_no_writeHeader post _ hpost
  · exact runCalls_forwarded _ (NewStatusLoggingResponseWriter res)

theorem C10_last_writeHeader_wins_witness :
    ([WriterCall.write [33]].all (fun k => !isWriteHeaderCall k) = true) ∧
    ((runCalls (NewStatusLoggingResponseWriter ⟨[], []⟩)
      ([WriterCall.writeHeader 500] ++ WriterCall.writeHeader 302 :: [WriterCall.write [33]])).Status =
      302 ∧
    (runCalls (NewStatusLoggingResponseWriter ⟨[], []⟩)
      ([WriterCall.writeHeader 500] ++ WriterCall.writeHeader 302 :: [WriterCall.write [33]])).responseWriter.calls =
      [] ++ ([WriterCall.writeHeader 500] ++ WriterCall.writeHeader 302 :: [WriterCall.write [33]])) :=
  ⟨by decide,
   C10_last_writeHeader_wins ⟨[], []⟩ [WriterCall.writeHeader 500] [WriterCall.write [33]] 302
     (by decide)⟩

theorem buildRoutes_patterns (cfg : List (String × String)) :
    ∀ rts, buildRoutes cfg = Except.ok rts →
      rts.map (fun rr => rr.pattern) = cfg.map (fun p => "/" ++ p.1 ++ "/") := by
  induction cfg with
  | nil =>
    intro rts h
    simp [buildRoutes] at h
    simp [← h]
  | cons p rest ih =>
    intro rts h
    obtain ⟨base, red⟩ := p
    rw [buildRoutes_cons] at h
    cases hp : urlParseGo red with
    | error e =>
      rw [hp] at h
      simp at h
    | ok u =>
      rw [hp] at h
      cases hb : buildRoutes rest with
      | error e =>
        rw [hb] at h
        simp at h
      | ok rs =>
        rw [hb] at h
        simp only [Except.ok.injEq] at h
        rw [← h]
        simp [ih rs hb]

/-- Claim C5: for every configured route name the router registers the
path-prefix pattern `"/" ++ name ++ "/"`, and a registered pattern matches a
request path exactly when the path begins with that pattern (so a route
named `api` matches `/api/foo` and does not match `/apikey/foo`). -/
theorem C5_router_dispatch (base path rest : String) (cfg : List (String × String))
    (rts : List RegisteredRoute) (h : buildRoutes cfg = Except.ok rts) :
    rts.map (fun rr => rr.pattern) = cfg.map (fun p => "/" ++ p.1 ++ "/") ∧
    muxPathPrefixMatches ("/" ++ base ++ "/") (("/" ++ base ++ "/") ++ rest) = true ∧
    (muxPathPrefixMatches ("/" ++ base ++ "/") path = true →
      path = ("/" ++ base ++ "/") ++
        (⟨path.data.drop ("/" ++ base ++ "/").data.length⟩ : String)) ∧
    muxPathPrefixMatches ("/" ++ "api" ++ "/") "/api/foo" = true ∧
    muxPathPrefixMatches ("/" ++ "api" ++ "/") "/apikey/foo" = false := by
  refine ⟨buildRoutes_patterns cfg rts h, ?_, ?_, by decide, by decide⟩
  · simp [muxPathPrefixMatches, String.data_append, List.isPrefixOf_iff_prefix]
  · intro hm
    have hm2 : ("/" ++ base ++ "/").data <+: path.data := by
      simpa [muxPathPrefixMatches, List.isPrefixOf_iff_prefix] using hm
    have hm3 := List.prefix_iff_eq_append.mp hm2
    apply String.ext
    rw [String.data_append]
    exact hm3.symm

theorem C5_router_dispatch_witness :
    buildRoutes [("svc", "http://backend.local:9000/base?key=abc")] =
      Except.ok [{ pattern := "/svc/",
                   route := { basePath := "/svc",
                              target := { Scheme := "http", Host := "backend.local:9000",
                                          Path := "/base", RawQuery := "key=abc" } } }] ∧
    ([{ pattern := "/svc/",
        route := { basePath := "/svc",
                   target := { Scheme := "http", Host := "backend.local:9000",
                               Path := "/base", RawQuery := "key=abc" } } }].map
        (fun rr : RegisteredRoute => rr.pattern) =
      [("svc", "http://backend.local:9000/base?key=abc")].map
        (fun p => "/" ++ p.1 ++ "/") ∧
    muxPathPrefixMatches ("/" ++ "api" ++ "/") (("/" ++ "api" ++ "/") ++ "foo") = true ∧
    (muxPathPrefixMatches ("/" ++ "api" ++ "/") "/api/foo" = true →
      "/api/foo" = ("/" ++ "api" ++ "/") ++
        (⟨("/api/foo" : String).data.drop ("/" ++ "api" ++ "/").data.length⟩ : String)) ∧
    muxPathPrefixMatches ("/" ++ "api" ++ "/") "/api/foo" = true ∧
    muxPathPrefixMatches ("/" ++ "api" ++ "/") "/apikey/foo" = false) :=
  ⟨by decide,
   C5_router_dispatch "api" "/api/foo" "foo"
     [("svc", "http://backend.local:9000/base?key=abc")]
     [{ pattern := "/svc/",
        route := { basePath := "/svc",
                   target := { Scheme := "http", Host := "backend.local:9000",
                               Path := "/base", RawQuery := "key=abc" } } }]
     (by decide)⟩

/-- Claim C6: for every request handled through the logging middleware,
exactly one structured record is emitted after the wrapped handler returns,
carrying the request URI, method, remote address, the status captured by the
status-logging writer the handler ran with, the human-readable status text
for that status, and the elapsed latency; the record carries a `request_id`
field exactly when the inbound `X-Request-Id` header is non-empty, echoed
verbatim. -/
theorem C6_access_log_record
    (handler : StatusLoggingResponseWriter → Request → StatusLoggingResponseWriter)
    (res : UnderlyingWriter) (r : Request) (latency : Int) :
    (NewLogrusHandler handler res r latency).1 =
      handler (NewStatusLoggingResponseWriter res) r ∧
    (NewLogrusHandler handler res r latency).2.request = r.RequestURI ∧
    (NewLogrusHandler handler res r latency).2.method = r.Method ∧
    (NewLogrusHandler handler res r latency).2.remote = r.RemoteAddr ∧
    (NewLogrusHandler handler res r latency).2.status =
      (handler (NewStatusLoggingResponseWriter res) r).Status ∧
    (NewLogrusHandler handler res r latency).2.text_status =
      StatusText (handler (NewStatusLoggingResponseWriter res) r).Status ∧
    (NewLogrusHandler handler res r latency).2.latency = latency ∧
    (NewLogrusHandler handler res r latency).2.message = "completed handling request" ∧
    (NewLogrusHandler handler res r latency).2.request_id =
      (if headerGetGo r.Header "X-Request-Id" = "" then none
       else some (headerGetGo r.Header "X-Request-Id")) := by
  by_cases h : headerGetGo r.Header "X-Request-Id" = "" <;>
    simp [NewLogrusHandler, h, StatusLoggingResponseWriter.Status]
